import Mathlib

set_option maxHeartbeats 1000000

/-!
# Verification of `robotoff/products.py`

A shallow embedding of the product-dataset access layer: JSON/Python values
are modelled by the inductive `PyVal`, a parsed JSON record (a Python dict
produced by `json.loads`) by an association list `RawRecord`, and fallible
Python code by `Except PyErr`.  Numeric JSON values are modelled by `Int`
(the fields compared by this module — `last_modified_t`, `unique_scans_n` —
are integers in the dataset).
-/

/-- A Python value as it appears in a decoded JSON product record. -/
inductive PyVal where
  | pnone : PyVal
  | pbool : Bool → PyVal
  | pint : Int → PyVal
  | pstr : String → PyVal
  | plist : List PyVal → PyVal
  | pdict : List (String × PyVal) → PyVal

mutual
/-- Structural (Lean-level) equality test on `PyVal`. -/
def pyBeq : PyVal → PyVal → Bool
  | .pnone, .pnone => true
  | .pbool a, .pbool b => a == b
  | .pint a, .pint b => a == b
  | .pstr a, .pstr b => a == b
  | .plist a, .plist b => pyBeqList a b
  | .pdict a, .pdict b => pyBeqDict a b
  | _, _ => false

/-- Structural equality test on lists of `PyVal`. -/
def pyBeqList : List PyVal → List PyVal → Bool
  | [], [] => true
  | x :: xs, y :: ys => pyBeq x y && pyBeqList xs ys
  | _, _ => false

/-- Structural equality test on string-keyed association lists of `PyVal`. -/
def pyBeqDict : List (String × PyVal) → List (String × PyVal) → Bool
  | [], [] => true
  | (k1, v1) :: xs, (k2, v2) :: ys => k1 == k2 && pyBeq v1 v2 && pyBeqDict xs ys
  | _, _ => false
end

mutual
theorem pyBeq_eq : ∀ (a b : PyVal), pyBeq a b = true ↔ a = b
  | .pnone, b => by cases b <;> simp [pyBeq]
  | .pbool a, b => by cases b <;> simp [pyBeq]
  | .pint a, b => by cases b <;> simp [pyBeq]
  | .pstr a, b => by cases b <;> simp [pyBeq]
  | .plist l, .pnone => by simp [pyBeq]
  | .plist l, .pbool b => by simp [pyBeq]
  | .plist l, .pint b => by simp [pyBeq]
  | .plist l, .pstr b => by simp [pyBeq]
  | .plist l, .plist m => by simp [pyBeq, pyBeqList_eq l m]
  | .plist l, .pdict d => by simp [pyBeq]
  | .pdict d, .pnone => by simp [pyBeq]
  | .pdict d, .pbool b => by simp [pyBeq]
  | .pdict d, .pint b => by simp [pyBeq]
  | .pdict d, .pstr b => by simp [pyBeq]
  | .pdict d, .plist m => by simp [pyBeq]
  | .pdict d, .pdict e => by simp [pyBeq, pyBeqDict_eq d e]

theorem pyBeqList_eq : ∀ (a b : List PyVal), pyBeqList a b = true ↔ a = b
  | [], [] => by simp [pyBeqList]
  | [], _ :: _ => by simp [pyBeqList]
  | _ :: _, [] => by simp [pyBeqList]
  | x :: xs, y :: ys => by
    simp [pyBeqList, pyBeq_eq x y, pyBeqList_eq xs ys]

theorem pyBeqDict_eq :
    ∀ (a b : List (String × PyVal)), pyBeqDict a b = true ↔ a = b
  | [], [] => by simp [pyBeqDict]
  | [], _ :: _ => by simp [pyBeqDict]
  | _ :: _, [] => by simp [pyBeqDict]
  | (k1, v1) :: xs, (k2, v2) :: ys => by
    simp [pyBeqDict, pyBeq_eq v1 v2, pyBeqDict_eq xs ys, Prod.ext_iff,
      and_assoc]
end

instance : DecidableEq PyVal :=
  fun a b => decidable_of_iff (pyBeq a b = true) (pyBeq_eq a b)

/-- A Python exception, as far as this module distinguishes them. -/
inductive PyErr where
  | typeError : PyErr
  | valueError : String → PyErr
  deriving DecidableEq

/-- A decoded JSON record (Python dict with string keys). -/
abbrev RawRecord := List (String × PyVal)

/-- `d[k]` lookup on a decoded record: first entry with the given key. -/
def recGet (r : RawRecord) (key : String) : Option PyVal :=
  (r.find? (fun kv => kv.1 == key)).map (fun kv => kv.2)

/-- Python `product.get(k)`: `None` when the key is absent. -/
def pyGet (r : RawRecord) (key : String) : PyVal :=
  (recGet r key).getD .pnone

/-- Python truthiness of a value (`bool(v)`). -/
def pyTruthy : PyVal → Bool
  | .pnone => false
  | .pbool b => b
  | .pint n => n != 0
  | .pstr s => s != ""
  | .plist l => !l.isEmpty
  | .pdict d => !d.isEmpty

/-- Python `x or d`: `x` when truthy, else `d`. -/
def pyOr (v dflt : PyVal) : PyVal :=
  if pyTruthy v then v else dflt

/-- `False` and `True` coerce to the integers `0` and `1` in Python. -/
def boolInt (b : Bool) : Int :=
  if b then 1 else 0

mutual
/-- Python `==` on values.  Structural, with bool/int numeric unification.
Dict equality is modelled entry-order-sensitively: the embedded code only
ever compares dict-valued fields against strings and numbers (where `==` is
`False` in both models), so the two semantics agree on every comparison the
code performs. -/
def pyEq : PyVal → PyVal → Bool
  | .pnone, .pnone => true
  | .pbool a, .pbool b => a == b
  | .pbool a, .pint b => boolInt a == b
  | .pint a, .pbool b => a == boolInt b
  | .pint a, .pint b => a == b
  | .pstr a, .pstr b => a == b
  | .plist a, .plist b => pyEqList a b
  | .pdict a, .pdict b => pyEqDict a b
  | _, _ => false

/-- Python `==` on lists: elementwise. -/
def pyEqList : List PyVal → List PyVal → Bool
  | [], [] => true
  | x :: xs, y :: ys => pyEq x y && pyEqList xs ys
  | _, _ => false

/-- Python `==` on dicts (see `pyEq` for the order-sensitivity caveat). -/
def pyEqDict : List (String × PyVal) → List (String × PyVal) → Bool
  | [], [] => true
  | (k1, v1) :: xs, (k2, v2) :: ys => k1 == k2 && pyEq v1 v2 && pyEqDict xs ys
  | _, _ => false
end

/-- Python three-way comparison of a value against a number; `.error`
models the `TypeError` raised when the operands are not both numeric. -/
def pyCmpInt : PyVal → Int → Except PyErr Ordering
  | .pbool a, b => .ok (compare (boolInt a) b)
  | .pint a, b => .ok (compare a b)
  | _, _ => .error .typeError

/-- Python `v == n` for a number `n`: never raises; `False` across
non-numeric types. -/
def pyEqInt : PyVal → Int → Bool
  | .pbool a, b => boolInt a == b
  | .pint a, b => a == b
  | _, _ => false

/-- Python `v >= n`. -/
def pyGeInt (v : PyVal) (n : Int) : Except PyErr Bool :=
  (pyCmpInt v n).map (fun o => !(o == Ordering.lt))

/-- Python `v <= n`. -/
def pyLeInt (v : PyVal) (n : Int) : Except PyErr Bool :=
  (pyCmpInt v n).map (fun o => !(o == Ordering.gt))

/-- Python `x in container` (`TypeError` on non-container right operands,
and for unhashable keys probed against a dict). -/
def pyInE (x container : PyVal) : Except PyErr Bool :=
  match container with
  | .plist l => .ok (l.any (fun e => pyEq e x))
  | .pstr s =>
    match x with
    | .pstr sub => .ok (decide (List.IsInfix sub.toList s.toList))
    | _ => .error .typeError
  | .pdict d =>
    match x with
    | .pstr s => .ok (d.any (fun kv => kv.1 == s))
    | .plist _ => .error .typeError
    | .pdict _ => .error .typeError
    | _ => .ok false
  | _ => .error .typeError

/-- Python `len(v)`: defined for strings, lists and dicts, `TypeError`
otherwise (in particular on integers). -/
def pyLen : PyVal → Except PyErr Nat
  | .pstr s => .ok s.length
  | .plist l => .ok l.length
  | .pdict d => .ok d.length
  | _ => .error .typeError

/-- Python `str.isdigit`: nonempty and all characters decimal digits
(stated over the character list, which the kernel can evaluate). -/
def isdigit (s : String) : Bool :=
  !s.data.isEmpty && s.data.all Char.isDigit

/-- `.keys()` of a value: the keys when it is a dict, `TypeError` otherwise. -/
def pyKeys : PyVal → Except PyErr (List String)
  | .pdict d => .ok (d.map (fun kv => kv.1))
  | _ => .error .typeError

/-- The keys of a dict value (total variant used only in statements). -/
def pyDictKeys : PyVal → List String
  | .pdict d => d.map (fun kv => kv.1)
  | _ => []

/-- Filtering a list through a fallible predicate, propagating the first
exception (models a Python generator with a raising condition). -/
def exceptFilter (p : α → Except PyErr Bool) : List α → Except PyErr (List α)
  | [] => .ok []
  | x :: xs =>
    match p x with
    | .error e => .error e
    | .ok b =>
      match exceptFilter p xs with
      | .error e => .error e
      | .ok rest => .ok (if b then x :: rest else rest)

/-- Mapping a fallible function over a list, propagating the first
exception (models a Python generator or loop body that may raise). -/
def mapE (f : α → Except PyErr β) : List α → Except PyErr (List β)
  | [] => .ok []
  | x :: xs =>
    match f x with
    | .error e => .error e
    | .ok y =>
      match mapE f xs with
      | .error e => .error e
      | .ok ys => .ok (y :: ys)

/-! ## `ComparisonOperator` and `apply_comparison_operator` -/

/-- The comparison operators of `ComparisonOperator` (products.py). -/
inductive ComparisonOperator where
  | eq : ComparisonOperator
  | gt : ComparisonOperator
  | geq : ComparisonOperator
  | lt : ComparisonOperator
  | leq : ComparisonOperator
  deriving DecidableEq

/-- The `.name` of an operator member. -/
def ComparisonOperator.name : ComparisonOperator → String
  | .eq => "eq"
  | .gt => "gt"
  | .geq => "geq"
  | .lt => "lt"
  | .leq => "leq"

/-- `ComparisonOperator.get_from_string`: scan the members in declaration
order for a matching name; unknown names raise `ValueError`. -/
def ComparisonOperator.get_from_string (value : String) :
    Except PyErr ComparisonOperator :=
  match [ComparisonOperator.eq, .gt, .geq, .lt, .leq].find?
      (fun operator => operator.name == value) with
  | some operator => .ok operator
  | none => .error (.valueError ("unknown operator: " ++ value))

/-- `apply_comparison_operator(value_1, value_2, op)`: the requested Python
comparison with a `try/except TypeError: return False` around it.  The
second operand is a number, matching the `ref: Union[int, float]` argument
this module always passes. -/
def apply_comparison_operator (value_1 : PyVal) (value_2 : Int)
    (comparison_operator : ComparisonOperator) : Bool :=
  match comparison_operator with
  | .eq => pyEqInt value_1 value_2
  | .gt =>
    match pyCmpInt value_1 value_2 with
    | .ok o => o == Ordering.gt
    | .error _ => false
  | .geq =>
    match pyCmpInt value_1 value_2 with
    | .ok o => !(o == Ordering.lt)
    | .error _ => false
  | .lt =>
    match pyCmpInt value_1 value_2 with
    | .ok o => o == Ordering.lt
    | .error _ => false
  | .leq =>
    match pyCmpInt value_1 value_2 with
    | .ok o => !(o == Ordering.gt)
    | .error _ => false

/-! ## `ProductStream`

A stream is modelled by the list of records it yields; each filter method
is a stage from list to list (or to `Except` when the underlying Python
generator can raise while being consumed). -/

/-- A filter stage keeping the records satisfying a pure predicate: the
shape `(product for product in self.iterator if pred(product))` shared by
the non-raising `ProductStream` filters. -/
def filter_stage (pred : RawRecord → Bool) (stream : List RawRecord) :
    List RawRecord :=
  stream.filter pred

/-- `ProductStream.collect`: materialize the stream as a list. -/
def collect (stream : List RawRecord) : List RawRecord :=
  stream

/-- `ProductStream.filter_by_country_tag`. -/
def filter_by_country_tag (country_tag : String)
    (stream : List RawRecord) : Except PyErr (List RawRecord) :=
  exceptFilter
    (fun product =>
      pyInE (.pstr country_tag) (pyOr (pyGet product "countries_tags") (.plist [])))
    stream

/-- `ProductStream.filter_by_state_tag`. -/
def filter_by_state_tag (state_tag : String)
    (stream : List RawRecord) : Except PyErr (List RawRecord) :=
  exceptFilter
    (fun product =>
      pyInE (.pstr state_tag) (pyOr (pyGet product "states_tags") (.plist [])))
    stream

/-- `ProductStream.filter_text_field`: `product.get(field, "") == value`. -/
def filter_text_field (field value : String) :
    List RawRecord → List RawRecord :=
  filter_stage (fun product => pyEq ((recGet product field).getD (.pstr "")) (.pstr value))

/-- `ProductStream.filter_nonempty_text_field`:
`(product.get(field) or "") != ""`. -/
def filter_nonempty_text_field (field : String) :
    List RawRecord → List RawRecord :=
  filter_stage (fun product => !(pyEq (pyOr (pyGet product field) (.pstr "")) (.pstr "")))

/-- `ProductStream.filter_empty_text_field`. -/
def filter_empty_text_field (field : String) :
    List RawRecord → List RawRecord :=
  filter_stage (fun product => pyEq (pyOr (pyGet product field) (.pstr "")) (.pstr ""))

/-- `ProductStream.filter_nonempty_tag_field`:
truthiness of `product.get(field) or []`. -/
def filter_nonempty_tag_field (field : String) :
    List RawRecord → List RawRecord :=
  filter_stage (fun product => pyTruthy (pyOr (pyGet product field) (.plist [])))

/-- `ProductStream.filter_empty_tag_field`. -/
def filter_empty_tag_field (field : String) :
    List RawRecord → List RawRecord :=
  filter_stage (fun product => !(pyTruthy (pyOr (pyGet product field) (.plist []))))

/-- `ProductStream.filter_number_field(field, ref, default, operator)`:
the operator name is resolved eagerly (unknown name raises `ValueError` at
call time); each surviving record satisfies the comparison of
`product.get(field, default)` against `ref`. -/
def filter_number_field (field : String) (ref : Int) (default : Int)
    (operator : String) (stream : List RawRecord) :
    Except PyErr (List RawRecord) :=
  match ComparisonOperator.get_from_string operator with
  | .error e => .error e
  | .ok operator_ =>
    .ok (stream.filter (fun product =>
      apply_comparison_operator ((recGet product field).getD (.pint default))
        ref operator_))

/-- `ProductStream.filter_by_modified_datetime(from_t, to_t)`: the
`datetime` arguments are modelled by their integer timestamps.  With
neither bound a `ValueError` is raised; with `from_t` given the stream
keeps records having `last_modified_t >= from_t.timestamp()`; otherwise —
only when `from_t` is absent — records having
`last_modified_t <= to_t.timestamp()` are kept.  The comparison itself can
raise (propagated `TypeError`) on a non-numeric `last_modified_t`. -/
def filter_by_modified_datetime (from_t to_t : Option Int)
    (stream : List RawRecord) : Except PyErr (List RawRecord) :=
  match from_t, to_t with
  | none, none =>
    .error (.valueError "one of `from_t` or `to_t` must be provided")
  | some from_timestamp, _ =>
    exceptFilter
      (fun product =>
        match recGet product "last_modified_t" with
        | none => .ok false
        | some v => pyGeInt v from_timestamp)
      stream
  | none, some to_timestamp =>
    exceptFilter
      (fun product =>
        match recGet product "last_modified_t" with
        | none => .ok false
        | some v => pyLeInt v to_timestamp)
      stream

/-- `ProductStream.take(count)`. -/
def streamTake (count : Nat) (stream : List RawRecord) : List RawRecord :=
  stream.take count

/-! ## `Product` (Record projection) -/

/-- The `Product` record: one field per `__slots__` entry, each holding the
Python value the constructor assigns. -/
structure Product where
  barcode : PyVal
  countries_tags : PyVal
  categories_tags : PyVal
  emb_codes_tags : PyVal
  labels_tags : PyVal
  quantity : PyVal
  expiration_date : PyVal
  brands_tags : PyVal
  stores_tags : PyVal
  unique_scans_n : PyVal
  images : PyVal
  image_ids : PyVal
  packagings : PyVal
  lang : PyVal
  ingredients_text : PyVal
  nutriments : PyVal
  deriving DecidableEq

/-- The `__slots__` attribute names of `Product`, in declaration order. -/
def product_slots : List String :=
  ["barcode", "countries_tags", "categories_tags", "emb_codes_tags",
   "labels_tags", "quantity", "expiration_date", "brands_tags",
   "stores_tags", "unique_scans_n", "images", "image_ids", "packagings",
   "lang", "ingredients_text", "nutriments"]

/-- `Product.__init__(product)`.  The only fallible step is
`self.images.keys()` in the derived `image_ids` branch, reached when the
raw record has no `image_ids` key: it raises when `images` (after the
`or x7b x7d` default) is a truthy non-dict. -/
def Product.ofRaw (product : RawRecord) : Except PyErr Product :=
  let images := pyOr (pyGet product "images") (.pdict [])
  let image_ids_e : Except PyErr PyVal :=
    match recGet product "image_ids" with
    | some v => .ok v
    | none =>
      (pyKeys images).map (fun ks => .plist ((ks.filter isdigit).map .pstr))
  match image_ids_e with
  | .error e => .error e
  | .ok image_ids =>
    .ok
      { barcode := pyGet product "code"
        countries_tags := pyOr (pyGet product "countries_tags") (.plist [])
        categories_tags := pyOr (pyGet product "categories_tags") (.plist [])
        emb_codes_tags := pyOr (pyGet product "emb_codes_tags") (.plist [])
        labels_tags := pyOr (pyGet product "labels_tags") (.plist [])
        quantity := pyOr (pyGet product "quantity") .pnone
        expiration_date := pyOr (pyGet product "expiration_date") .pnone
        brands_tags := pyOr (pyGet product "brands_tags") (.plist [])
        stores_tags := pyOr (pyGet product "stores_tags") (.plist [])
        unique_scans_n := pyOr (pyGet product "unique_scans_n") (.pint 0)
        images := images
        image_ids := image_ids
        packagings := pyOr (pyGet product "packagings") (.plist [])
        lang := pyGet product "lang"
        ingredients_text := pyGet product "ingredients_text"
        nutriments := pyOr (pyGet product "nutriments") (.pdict []) }

/-- `Product.get_fields()`: the minification whitelist. -/
def Product.get_fields : List String :=
  ["code", "countries_tags", "categories_tags", "emb_codes_tags",
   "labels_tags", "quantity", "expiration_date", "brands_tags",
   "stores_tags", "unique_scans_n", "images", "lang", "ingredients_text",
   "nutriments"]

/-- Setting `d[k] = v` on a string-keyed dict: replace the value of the
existing entry, else append a new entry. -/
def dictSetStr (d : RawRecord) (k : String) (v : PyVal) : RawRecord :=
  if d.any (fun kv => kv.1 == k) then
    d.map (fun kv => if kv.1 == k then (kv.1, v) else kv)
  else d ++ [(k, v)]

/-- The per-item projection of `ProductStream.iter_product`: with a
non-empty projection list, build `x7bk: item[k] for k in projection if k in
itemx7d` and, when `image_ids` is requested, overwrite it with the ids
derived from `images`. -/
def project_item (projection : Option (List String)) (item : RawRecord) :
    Except PyErr RawRecord :=
  match projection with
  | none => .ok item
  | some proj =>
    if proj.isEmpty then .ok item
    else
      let base := proj.foldl
        (fun d k =>
          match recGet item k with
          | some v => dictSetStr d k v
          | none => d) []
      if proj.contains "image_ids" then
        match pyKeys (pyOr (pyGet item "images") (.pdict [])) with
        | .error e => .error e
        | .ok ks =>
          .ok (dictSetStr base "image_ids" (.plist ((ks.filter isdigit).map .pstr)))
      else .ok base

/-- `ProductStream.iter_product(projection)`: one `Product` per surviving
raw record, in order. -/
def iter_product (projection : Option (List String))
    (stream : List RawRecord) : Except PyErr (List Product) :=
  mapE
    (fun item =>
      match project_item projection item with
      | .error e => .error e
      | .ok projected_item => Product.ofRaw projected_item)
    stream

/-! ## `minify_product_dataset` -/

/-- `minify_product_dataset`: one output record per input record, keeping
exactly the fields in `Product.get_fields()`. -/
def minify_product_dataset (dataset : List RawRecord) : List RawRecord :=
  dataset.map (fun item =>
    item.filter (fun fv => Product.get_fields.contains fv.1))

/-! ## Dataset lifecycle (`is_valid_dataset`, `fetch_dataset`) -/

/-- The installed artifacts `fetch_dataset` may replace: the two snapshot
files and the persisted ETag, each modelled by its decoded content. -/
structure LifecycleState where
  installed : Option (List RawRecord)
  installedMin : Option (List RawRecord)
  etag : Option String
  deriving DecidableEq

/-- A downloaded dataset file: the outcome of iterating it end to end
(`.error` when some line fails to decompress or parse) and the ETag
captured with the transfer. -/
structure DownloadedFile where
  parsed : Except PyErr (List RawRecord)
  etag : String

/-- `ProductDataset.count()` on a downloaded file: the record count, or
the propagated iteration exception. -/
def dataset_count (parsed : Except PyErr (List RawRecord)) :
    Except PyErr Nat :=
  parsed.map List.length

/-- `is_valid_dataset`: `False` when iteration raises or the record count
is below the configured minimum. -/
def is_valid_dataset (parsed : Except PyErr (List RawRecord))
    (minProductCount : Nat) : Bool :=
  match dataset_count parsed with
  | .error _ => false
  | .ok count => !(count < minProductCount)

/-- `fetch_dataset`: validate the downloaded file, and only on success
install the snapshot, the (optional) minified snapshot, and the new ETag;
on validation failure return `False` with every installed artifact
untouched. -/
def fetch_dataset (st : LifecycleState) (download : DownloadedFile)
    (minProductCount : Nat) (minify : Bool) : LifecycleState × Bool :=
  if is_valid_dataset download.parsed minProductCount then
    match download.parsed with
    | .ok records =>
      ({ installed := some records
         installedMin :=
           if minify then some (minify_product_dataset records)
           else st.installedMin
         etag := some download.etag }, true)
    | .error _ => (st, false)
  else (st, false)

/-- The destination contents a concurrent reader can observe while
`shutil.copy(src, dst)` rewrites `dst` in place: the destination is opened
for writing (truncated) and the source blocks are appended one by one. -/
def shutil_copy_states (src : List Nat) : List (List Nat) :=
  (List.range (src.length + 1)).map (fun i => src.take i)

/-- The destination contents observable across the INSTALLING step of
`fetch_dataset` (`shutil.copy(str(output_path), settings.JSONL_DATASET_PATH)`):
the old installed content, then every intermediate state of the copy. -/
def install_observable_states (old new_ : List Nat) : List (List Nat) :=
  old :: shutil_copy_states new_

/-! ## Stores -/

/-- Inserting into a string-or-other-keyed Python dict
(`store[product.barcode] = product`): replace the value held by the entry
with an equal key, else append.  Key equality is structural: the barcodes
occurring here are strings (or `None`/numbers), on which Python `==`
agrees with structural equality. -/
def dictInsert (store : List (PyVal × Product)) (k : PyVal) (v : Product) :
    List (PyVal × Product) :=
  if store.any (fun kv => decide (kv.1 = k)) then
    store.map (fun kv => if kv.1 = k then (kv.1, v) else kv)
  else store ++ [(k, v)]

/-- Python dict lookup `store.get(k)`. -/
def dictFind (store : List (PyVal × Product)) (k : PyVal) : Option Product :=
  (store.find? (fun kv => decide (kv.1 = k))).map (fun kv => kv.2)

/-- One iteration of the `MemoryProductStore.load_from_path` loop:
`if product.barcode: store[product.barcode] = product`. -/
def store_insert_product (store : List (PyVal × Product))
    (product : Product) : List (PyVal × Product) :=
  if pyTruthy product.barcode then dictInsert store product.barcode product
  else store

/-- The index built by the `load_from_path` loop from the projected
products, in stream order. -/
def build_store (products : List Product) : List (PyVal × Product) :=
  products.foldl store_insert_product []

/-- `MemoryProductStore.load_from_path(path, projection)`: reject a
projection lacking `code`, then index the projected product stream by
barcode.  The dataset file is modelled by its decoded records. -/
def load_from_path (dataset : List RawRecord)
    (projection : Option (List String)) :
    Except PyErr (List (PyVal × Product)) :=
  if (match projection with
      | some proj => !(proj.contains "code")
      | none => false) then
    .error (.valueError "at least `code` must be in projection")
  else
    match iter_product projection dataset with
    | .error e => .error e
    | .ok products => .ok (build_store products)

/-- `MemoryProductStore.__len__`. -/
def memory_store_len (store : List (PyVal × Product)) : Nat :=
  store.length

/-- `DBProductStore.__len__`:
`len(self.collection.estimated_document_count())` — `len` applied to the
integer returned by `estimated_document_count()`. -/
def db_product_store_len (estimated_document_count : Int) :
    Except PyErr Nat :=
  pyLen (.pint estimated_document_count)

/-- The remote `products` collection: documents keyed by `_id`. -/
structure MongoCollection where
  docs : List (String × RawRecord)

/-- `collection.find_one(x7b"_id": barcodex7d)`: the first document whose
`_id` matches, or `None`.  The optional field projection is elided: it
restricts the returned fields but never affects presence/absence. -/
def find_one (collection : MongoCollection) (barcode : String) :
    Option RawRecord :=
  (collection.docs.find? (fun kv => kv.1 == barcode)).map (fun kv => kv.2)

/-- `DBProductStore.get_product`: `None` with no query issued when the
`ENABLE_MONGODB_ACCESS` flag is off, else a single `find_one` query.  The
second component counts the remote queries attempted. -/
def get_product (enable_mongodb_access : Bool)
    (collection : MongoCollection) (barcode : String) :
    Option RawRecord × Nat :=
  if !enable_mongodb_access then (none, 0)
  else (find_one collection barcode, 1)

/-! ## Helper lemmas -/

instance exceptDecEq [DecidableEq ε] [DecidableEq α] :
    DecidableEq (Except ε α)
  | .error a, .error b => decidable_of_iff (a = b) (by simp)
  | .error _, .ok _ => isFalse (fun h => Except.noConfusion h)
  | .ok _, .error _ => isFalse (fun h => Except.noConfusion h)
  | .ok a, .ok b => decidable_of_iff (a = b) (by simp)

/-- A comparison that raises `TypeError` is swallowed to `False` by
`apply_comparison_operator`, whatever the operator (for `eq`, Python `==`
does not raise, and is `False` exactly on the shapes whose ordering
comparison raises). -/
theorem apply_comparison_operator_of_error (value_1 : PyVal) (value_2 : Int)
    (op : ComparisonOperator)
    (h : pyCmpInt value_1 value_2 = .error .typeError) :
    apply_comparison_operator value_1 value_2 op = false := by
  cases op <;> cases value_1 <;>
    simp_all [apply_comparison_operator, pyCmpInt, pyEqInt]

/-- `exceptFilter` agrees with `List.filter` when the predicate is
exception-free on the list. -/
theorem exceptFilter_eq_filter (p : α → Except PyErr Bool) (q : α → Bool) :
    ∀ l : List α, (∀ x ∈ l, p x = .ok (q x)) →
      exceptFilter p l = .ok (l.filter q)
  | [] => fun _ => rfl
  | x :: xs => fun h => by
    have hx := h x (List.mem_cons_self x xs)
    have hxs := exceptFilter_eq_filter p q xs
      (fun y hy => h y (List.mem_cons_of_mem x hy))
    by_cases hq : q x <;> simp [exceptFilter, hx, hxs, hq, List.filter_cons]

/-! ## Claim theorems -/

/-- C3 counterexample: the minification whitelist is not the `Product`
attribute names minus `image_ids` — a minified record may carry the key
`code`, which is not an attribute name (the attribute is `barcode`). -/
theorem minify_whitelist_claim_false :
    minify_product_dataset [[("code", PyVal.pstr "1")]]
        = [[("code", PyVal.pstr "1")]] ∧
    (product_slots.filter (fun s => s != "image_ids")).contains "code"
        = false := by
  decide

/-- C3 (amended): minification emits exactly one output record per input
record, and every key of every emitted record belongs to the fixed
whitelist `Product.get_fields()`. -/
theorem minify_preserves_rows_and_whitelist (dataset : List RawRecord) :
    (minify_product_dataset dataset).length = dataset.length ∧
    ∀ item ∈ minify_product_dataset dataset, ∀ fv ∈ item,
      Product.get_fields.contains fv.1 = true := by
  constructor
  · simp [minify_product_dataset]
  · intro item hitem fv hfv
    simp only [minify_product_dataset, List.mem_map] at hitem
    obtain ⟨src, _, rfl⟩ := hitem
    exact (List.mem_filter.mp hfv).2

/-- Witness for C3 at a concrete snapshot. -/
theorem minify_preserves_rows_and_whitelist_witness :
    (minify_product_dataset
        [[("code", PyVal.pstr "1"), ("junk", PyVal.pnone)]]).length = 1 ∧
    Product.get_fields.contains "code" = true := by
  refine ⟨(minify_preserves_rows_and_whitelist _).1, ?_⟩
  exact (minify_preserves_rows_and_whitelist
      [[("code", PyVal.pstr "1"), ("junk", PyVal.pnone)]]).2
    [("code", PyVal.pstr "1")] (by decide) ("code", PyVal.pstr "1") (by decide)

/-- C4: when validation of the downloaded file fails (iteration raises or
the record count is below the minimum), the refresh cycle reports failure
and leaves the installed snapshot, the minified snapshot and the persisted
ETag untouched. -/
theorem fetch_dataset_invalid_aborts (st : LifecycleState)
    (download : DownloadedFile) (minProductCount : Nat) (minify : Bool)
    (h : is_valid_dataset download.parsed minProductCount = false) :
    fetch_dataset st download minProductCount minify = (st, false) := by
  simp [fetch_dataset, h]

/-- Witness for C4: a downloaded file with zero records against a minimum
of one leaves a previously installed state unchanged. -/
theorem fetch_dataset_invalid_aborts_witness :
    fetch_dataset
        ⟨some [[("code", PyVal.pstr "1")]], none, some "old-etag"⟩
        ⟨.ok [], "new-etag"⟩ 1 true
      = (⟨some [[("code", PyVal.pstr "1")]], none, some "old-etag"⟩, false) :=
  fetch_dataset_invalid_aborts _ _ _ _ (by decide)

/-- C5 (code bug evidence): the INSTALLING step copies the downloaded file
over the installed path with `shutil.copy`, which rewrites the destination
in place; a concurrent reader can observe a partially written state that
is neither the old nor the new content. -/
theorem install_copy_not_atomic :
    ¬ (∀ s ∈ install_observable_states [0, 0] [1, 1],
        s = [0, 0] ∨ s = [1, 1]) := by
  decide

/-- C6 (code bug evidence): `DBProductStore.__len__` applies `len` to the
integer returned by `estimated_document_count()`, so it raises `TypeError`
on every call instead of returning the record count. -/
theorem db_product_store_len_raises (estimated_document_count : Int) :
    db_product_store_len estimated_document_count
      = .error .typeError := rfl

/-- C7: a `Live Store` lookup of an identifier absent from the remote
collection yields `None` (not an error) from its single query, and with
`ENABLE_MONGODB_ACCESS` off every lookup yields `None` with zero queries
attempted. -/
theorem get_product_absent_and_disabled :
    (∀ (collection : MongoCollection) (barcode : String),
        (∀ kv ∈ collection.docs, kv.1 ≠ barcode) →
        get_product true collection barcode = (none, 1)) ∧
    (∀ (collection : MongoCollection) (barcode : String),
        get_product false collection barcode = (none, 0)) := by
  constructor
  · intro collection barcode h
    have hfind : collection.docs.find? (fun kv => kv.1 == barcode) = none := by
      rw [List.find?_eq_none]
      intro kv hkv
      simpa using h kv hkv
    simp [get_product, find_one, hfind]
  · intro collection barcode
    simp [get_product]

/-- Witness for C7 at a one-document collection and a missing key. -/
theorem get_product_absent_and_disabled_witness :
    get_product true ⟨[("other", [])]⟩ "missing" = (none, 1) ∧
    get_product false ⟨[("other", [])]⟩ "missing" = (none, 0) :=
  ⟨get_product_absent_and_disabled.1 _ _ (by decide),
   get_product_absent_and_disabled.2 _ _⟩

/-- C8: an ill-typed numeric comparison evaluates to `False` under every
operator; a number-field filter with a recognized operator never raises
while iterating, and a record whose comparison is ill-typed is excluded
from its output. -/
theorem comparison_type_mismatch_nonmatch :
    (∀ (value_1 : PyVal) (value_2 : Int) (op : ComparisonOperator),
        pyCmpInt value_1 value_2 = .error .typeError →
        apply_comparison_operator value_1 value_2 op = false) ∧
    (∀ (field : String) (ref default : Int) (operator : String)
        (op : ComparisonOperator) (stream : List RawRecord),
        ComparisonOperator.get_from_string operator = .ok op →
        ∃ out, filter_number_field field ref default operator stream
          = .ok out) ∧
    (∀ (field : String) (ref default : Int) (operator : String)
        (op : ComparisonOperator) (stream out : List RawRecord)
        (product : RawRecord),
        ComparisonOperator.get_from_string operator = .ok op →
        pyCmpInt ((recGet product field).getD (.pint default)) ref
          = .error .typeError →
        filter_number_field field ref default operator stream = .ok out →
        product ∉ out) := by
  refine ⟨apply_comparison_operator_of_error, ?_, ?_⟩
  · intro field ref default operator op stream hop
    simp only [filter_number_field, hop]
    exact ⟨_, rfl⟩
  · intro field ref default operator op stream out product hop herr hout hmem
    simp only [filter_number_field, hop, Except.ok.injEq] at hout
    rw [← hout] at hmem
    have := List.of_mem_filter hmem
    rw [apply_comparison_operator_of_error _ _ _ herr] at this
    exact Bool.false_ne_true this

/-- Witness for C8: comparing a string field against a number under `gt`. -/
theorem comparison_type_mismatch_nonmatch_witness :
    apply_comparison_operator (PyVal.pstr "a") 3 ComparisonOperator.gt
        = false ∧
    (∃ out, filter_number_field "f" 3 0 "gt" [[("f", PyVal.pstr "a")]]
        = .ok out) ∧
    [("f", PyVal.pstr "a")] ∉ ([] : List RawRecord) := by
  refine ⟨comparison_type_mismatch_nonmatch.1 _ _ _ (by decide),
    comparison_type_mismatch_nonmatch.2.1 "f" 3 0 "gt" .gt _ (by decide),
    comparison_type_mismatch_nonmatch.2.2 "f" 3 0 "gt" .gt
      [[("f", PyVal.pstr "a")]] [] _ (by decide) (by decide) (by decide)⟩

/-- C9: two predicate filter stages commute — collecting after applying
stage `a` then `b` yields the same records as `b` then `a`. -/
theorem filter_stage_commutes (a b : RawRecord → Bool)
    (stream : List RawRecord) :
    collect (filter_stage a (filter_stage b stream))
      = collect (filter_stage b (filter_stage a stream)) := by
  simp only [collect, filter_stage, List.filter_filter]
  exact List.filter_congr (fun x _ => by rw [Bool.and_comm])

/-! ## C1: `filter_by_modified_datetime` bounds -/

/-- `compare`/`>=` bridge on integers. -/
theorem compare_not_lt_beq (a b : Int) :
    (!(compare a b == Ordering.lt)) = decide (b ≤ a) := by
  by_cases h : b ≤ a
  · cases hcc : compare a b
    · exact absurd hcc (compare_ge_iff_ge.mpr h)
    · rw [decide_eq_true h]; rfl
    · rw [decide_eq_true h]; rfl
  · rw [compare_lt_iff_lt.mpr (by omega), decide_eq_false h]; rfl

/-- `compare`/`<=` bridge on integers. -/
theorem compare_not_gt_beq (a b : Int) :
    (!(compare a b == Ordering.gt)) = decide (a ≤ b) := by
  by_cases h : a ≤ b
  · cases hcc : compare a b
    · rw [decide_eq_true h]; rfl
    · rw [decide_eq_true h]; rfl
    · exact absurd hcc (compare_le_iff_le.mpr h)
  · rw [compare_gt_iff_gt.mpr (by omega), decide_eq_false h]; rfl

/-- The record's `last_modified_t`, when present, is an integer (the shape
on which the datetime filter's comparisons cannot raise). -/
def intOnlyLastModified (r : RawRecord) : Bool :=
  match recGet r "last_modified_t" with
  | some (.pint _) => true
  | some _ => false
  | none => true

/-- The claim's predicate: the timestamp lies within ALL provided
inclusive bounds. -/
def keeps_within_all_bounds (from_t to_t : Option Int) (t : Int) : Bool :=
  (match from_t with
   | some ft => decide (ft ≤ t)
   | none => true) &&
  (match to_t with
   | some tt => decide (t ≤ tt)
   | none => true)

/-- C1 counterexample: with both bounds provided, a record violating the
upper bound is nevertheless kept — the upper bound is ignored. -/
theorem filter_by_modified_datetime_claim_false :
    filter_by_modified_datetime (some 0) (some 10)
        [[("last_modified_t", PyVal.pint 20)]]
      = .ok [[("last_modified_t", PyVal.pint 20)]] ∧
    keeps_within_all_bounds (some 0) (some 10) 20 = false := by
  decide

/-- C1 (amended): when `from_t` is provided the stream keeps exactly the
records whose `last_modified_t` is at least `from_t` — any `to_t` is
ignored; only when `from_t` is absent does `to_t` act, keeping exactly the
records whose `last_modified_t` is at most `to_t`. -/
theorem filter_by_modified_datetime_bounds (from_timestamp to_timestamp : Int)
    (stream : List RawRecord)
    (h : ∀ r ∈ stream, intOnlyLastModified r = true) :
    filter_by_modified_datetime (some from_timestamp) (some to_timestamp)
        stream
      = .ok (stream.filter (fun r =>
          match recGet r "last_modified_t" with
          | some (.pint n) => decide (from_timestamp ≤ n)
          | _ => false)) ∧
    filter_by_modified_datetime none (some to_timestamp) stream
      = .ok (stream.filter (fun r =>
          match recGet r "last_modified_t" with
          | some (.pint n) => decide (n ≤ to_timestamp)
          | _ => false)) := by
  constructor
  · simp only [filter_by_modified_datetime]
    apply exceptFilter_eq_filter
    intro r hr
    have hint := h r hr
    unfold intOnlyLastModified at hint
    rcases hg : recGet r "last_modified_t" with _ | v
    · simp [hg]
    · rw [hg] at hint
      cases v with
      | pint n =>
        simp only [hg, pyGeInt, pyCmpInt, Except.map, Except.ok.injEq]
        exact compare_not_lt_beq n from_timestamp
      | pnone => simp at hint
      | pbool b => simp at hint
      | pstr s => simp at hint
      | plist l => simp at hint
      | pdict d => simp at hint
  · simp only [filter_by_modified_datetime]
    apply exceptFilter_eq_filter
    intro r hr
    have hint := h r hr
    unfold intOnlyLastModified at hint
    rcases hg : recGet r "last_modified_t" with _ | v
    · simp [hg]
    · rw [hg] at hint
      cases v with
      | pint n =>
        simp only [hg, pyLeInt, pyCmpInt, Except.map, Except.ok.injEq]
        exact compare_not_gt_beq n to_timestamp
      | pnone => simp at hint
      | pbool b => simp at hint
      | pstr s => simp at hint
      | plist l => simp at hint
      | pdict d => simp at hint

/-- Witness for C1 at a two-record stream. -/
theorem filter_by_modified_datetime_bounds_witness :
    filter_by_modified_datetime (some 0) (some 10)
        [[("last_modified_t", PyVal.pint 20)], []]
      = .ok [[("last_modified_t", PyVal.pint 20)]] ∧
    filter_by_modified_datetime none (some 10)
        [[("last_modified_t", PyVal.pint 20)], []]
      = .ok [] := by
  have h := filter_by_modified_datetime_bounds 0 10
      [[("last_modified_t", PyVal.pint 20)], []] (by decide)
  exact ⟨h.1.trans (by decide), h.2.trans (by decide)⟩

/-! ## C2: `image_ids` derivation -/

/-- C2 counterexample: a raw record carrying a precomputed `image_ids` key
keeps that value verbatim, even when it differs from the digit-named keys
of `images` — the projection result's equality test with the derived ids
evaluates to `false`. -/
theorem product_image_ids_claim_false :
    (Product.ofRaw
        [("image_ids", PyVal.plist [PyVal.pstr "foo"]),
         ("images", PyVal.pdict [("1", PyVal.pdict [])])]).map
      (fun p => pyBeq p.image_ids
        (.plist (((pyDictKeys p.images).filter isdigit).map .pstr)))
      = .ok false := by
  decide

/-- C2 (amended): when the raw record has no `image_ids` key, the
constructed `Product` derives `image_ids` as exactly the digit-only keys
of its `images` dict; when the raw record carries an `image_ids` key, that
value is taken verbatim. -/
theorem product_image_ids_spec :
    (∀ (r : RawRecord) (p : Product), recGet r "image_ids" = none →
        Product.ofRaw r = .ok p →
        ∃ d, p.images = .pdict d ∧
          p.image_ids
            = .plist (((d.map Prod.fst).filter isdigit).map .pstr)) ∧
    (∀ (r : RawRecord) (v : PyVal) (p : Product),
        recGet r "image_ids" = some v →
        Product.ofRaw r = .ok p → p.image_ids = v) := by
  constructor
  · intro r p hnone hok
    simp only [Product.ofRaw, hnone] at hok
    rcases himg : pyOr (pyGet r "images") (.pdict []) with _ | _ | _ | _ | l | d <;>
      rw [himg] at hok <;>
      simp only [pyKeys, Except.map] at hok
    · exact absurd hok (by simp)
    · exact absurd hok (by simp)
    · exact absurd hok (by simp)
    · exact absurd hok (by simp)
    · exact absurd hok (by simp)
    · refine ⟨d, ?_, ?_⟩ <;> rw [← (Except.ok.injEq _ _).mp hok]
  · intro r v p hsome hok
    simp only [Product.ofRaw, hsome] at hok
    rw [← (Except.ok.injEq _ _).mp hok]

/-- Witness for C2: both branches at concrete records. -/
theorem product_image_ids_spec_witness :
    (∃ p, Product.ofRaw
          [("images", PyVal.pdict [("1", PyVal.pdict []),
                                   ("front_fr", PyVal.pdict [])])]
        = .ok p ∧
      ∃ d, p.images = PyVal.pdict d ∧
        p.image_ids
          = PyVal.plist (((d.map Prod.fst).filter isdigit).map PyVal.pstr)) ∧
    (∃ p, Product.ofRaw [("image_ids", PyVal.plist [PyVal.pstr "2"])]
        = .ok p ∧
      p.image_ids = PyVal.plist [PyVal.pstr "2"]) := by
  constructor
  · refine ⟨_, rfl, ?_⟩
    exact product_image_ids_spec.1
      [("images", PyVal.pdict [("1", PyVal.pdict []),
                               ("front_fr", PyVal.pdict [])])]
      _ (by decide) rfl
  · refine ⟨_, rfl, ?_⟩
    exact product_image_ids_spec.2
      [("image_ids", PyVal.plist [PyVal.pstr "2"])]
      (PyVal.plist [PyVal.pstr "2"]) _ (by decide) rfl

/-! ## C10: `MemoryProductStore.load_from_path` indexing -/

/-- The `Product` built from the last record in stream order whose truthy
barcode equals `k` (the fold mirrors left-to-right consumption, keeping
the latest match). -/
def last_with_barcode (products : List Product) (k : PyVal) : Option Product :=
  products.foldl
    (fun acc product =>
      if pyTruthy product.barcode && decide (product.barcode = k) then
        some product
      else acc)
    none

theorem dictFind_append_single (k k2 : PyVal) (v : Product)
    (store : List (PyVal × Product)) (h : ∀ kv ∈ store, kv.1 ≠ k) :
    dictFind (store ++ [(k, v)]) k2
      = if k = k2 then some v else dictFind store k2 := by
  unfold dictFind
  rw [List.find?_append]
  by_cases hk : k = k2
  · subst hk
    have h1 : store.find? (fun kv => decide (kv.1 = k)) = none := by
      rw [List.find?_eq_none]
      intro kv hkv
      simpa using h kv hkv
    rw [h1, if_pos rfl]
    simp [List.find?]
  · have h2 : List.find? (fun kv => decide (kv.1 = k2)) [(k, v)] = none := by
      simp [List.find?, hk]
    rw [h2, if_neg hk]
    cases hf : store.find? (fun kv => decide (kv.1 = k2)) <;> simp [hf]

theorem find?_replace (k k2 : PyVal) (v : Product) :
    ∀ store : List (PyVal × Product),
      (store.map (fun kv => if kv.1 = k then (kv.1, v) else kv)).find?
          (fun kv => decide (kv.1 = k2))
        = if k = k2 then
            (store.find? (fun kv => decide (kv.1 = k))).map
              (fun kv => (kv.1, v))
          else store.find? (fun kv => decide (kv.1 = k2))
  | [] => by by_cases hk : k = k2 <;> simp [hk]
  | kv :: store => by
    have ih := find?_replace k k2 v store
    by_cases h1 : kv.1 = k
    · rw [List.map_cons, if_pos h1]
      by_cases hk : k = k2
      · subst hk
        rw [List.find?_cons_of_pos _ (by simp [h1]),
          List.find?_cons_of_pos _ (by simp [h1]), if_pos rfl]
        simp
      · rw [if_neg hk,
          List.find?_cons_of_neg _ (by simp [h1, hk]),
          List.find?_cons_of_neg _ (by simp [h1, hk]), ih, if_neg hk]
    · rw [List.map_cons, if_neg h1]
      by_cases hk2 : kv.1 = k2
      · have hk : ¬ k = k2 := fun hcon => h1 (hk2.trans hcon.symm)
        rw [if_neg hk, List.find?_cons_of_pos _ (by simp [hk2]),
          List.find?_cons_of_pos _ (by simp [hk2])]
      · rw [List.find?_cons_of_neg _ (by simp [hk2]), ih]
        by_cases hk : k = k2
        · rw [if_pos hk, if_pos hk,
            List.find?_cons_of_neg _ (by simp [h1])]
        · rw [if_neg hk, if_neg hk,
            List.find?_cons_of_neg _ (by simp [hk2])]

theorem dictFind_dictInsert (store : List (PyVal × Product))
    (k k2 : PyVal) (v : Product) :
    dictFind (dictInsert store k v) k2
      = if k = k2 then some v else dictFind store k2 := by
  unfold dictInsert
  by_cases hany : store.any (fun kv => decide (kv.1 = k))
  · rw [if_pos hany]
    unfold dictFind
    rw [find?_replace]
    by_cases hk : k = k2
    · rw [if_pos hk, if_pos hk]
      have hsome : (store.find? (fun kv => decide (kv.1 = k))).isSome := by
        rw [List.find?_isSome]
        exact List.any_eq_true.mp hany
      obtain ⟨w, hw⟩ := Option.isSome_iff_exists.mp hsome
      rw [hw]
      rfl
    · rw [if_neg hk, if_neg hk]
  · rw [if_neg hany]
    apply dictFind_append_single
    intro kv hkv heq
    exact hany (List.any_eq_true.mpr ⟨kv, hkv, by simp [heq]⟩)

theorem foldl_insert_find (k : PyVal) :
    ∀ (products : List Product) (store : List (PyVal × Product)),
      dictFind (products.foldl store_insert_product store) k
        = products.foldl
            (fun acc product =>
              if pyTruthy product.barcode && decide (product.barcode = k) then
                some product
              else acc)
            (dictFind store k)
  | [], _ => rfl
  | p :: ps, store => by
    have ih := foldl_insert_find k ps (store_insert_product store p)
    rw [List.foldl_cons, List.foldl_cons, ih]
    congr 1
    unfold store_insert_product
    by_cases ht : pyTruthy p.barcode
    · rw [if_pos ht, dictFind_dictInsert]
      by_cases hbk : p.barcode = k
      · rw [if_pos hbk,
          if_pos (Bool.and_eq_true_iff.mpr ⟨ht, decide_eq_true hbk⟩)]
      · rw [if_neg hbk, if_neg (by simp [hbk])]
    · rw [if_neg ht, if_neg (by simp [ht])]

theorem foldl_last_acc (k : PyVal) :
    ∀ (products : List Product) (acc : Option Product),
      products.foldl
          (fun acc product =>
            if pyTruthy product.barcode && decide (product.barcode = k) then
              some product
            else acc) acc
        = (last_with_barcode products k).or acc
  | [], _ => rfl
  | p :: ps, acc => by
    unfold last_with_barcode
    rw [List.foldl_cons, List.foldl_cons]
    rw [foldl_last_acc k ps, foldl_last_acc k ps]
    cases hl : last_with_barcode ps k
    · by_cases hp : pyTruthy p.barcode && decide (p.barcode = k) <;>
        simp [hp, Option.or]
    · simp [Option.or]

theorem dictInsert_keys_nodup (store : List (PyVal × Product)) (k : PyVal)
    (v : Product) (h : (store.map Prod.fst).Nodup) :
    ((dictInsert store k v).map Prod.fst).Nodup := by
  unfold dictInsert
  by_cases hany : store.any (fun kv => decide (kv.1 = k))
  · rw [if_pos hany]
    have hmap :
        (store.map (fun kv => if kv.1 = k then (kv.1, v) else kv)).map
            Prod.fst
          = store.map Prod.fst := by
      rw [List.map_map]
      apply List.map_congr_left
      intro kv _
      by_cases h2 : kv.1 = k <;> simp [h2]
    rw [hmap]
    exact h
  · rw [if_neg hany, List.map_append, List.nodup_append]
    refine ⟨h, by simp, ?_⟩
    intro a ha hamem
    simp only [List.map_cons, List.map_nil, List.mem_singleton] at hamem
    subst hamem
    obtain ⟨kv, hkv, rfl⟩ := List.mem_map.mp ha
    exact hany (List.any_eq_true.mpr ⟨kv, hkv, by simp⟩)

theorem build_keys_nodup :
    ∀ (products : List Product) (store : List (PyVal × Product)),
      (store.map Prod.fst).Nodup →
      ((products.foldl store_insert_product store).map Prod.fst).Nodup
  | [], _ => id
  | p :: ps, store => fun h => by
    rw [List.foldl_cons]
    apply build_keys_nodup ps
    unfold store_insert_product
    by_cases ht : pyTruthy p.barcode
    · rw [if_pos ht]
      exact dictInsert_keys_nodup _ _ _ h
    · rw [if_neg ht]
      exact h

theorem dictFind_eq_none_iff (store : List (PyVal × Product)) (k : PyVal) :
    dictFind store k = none ↔ k ∉ store.map Prod.fst := by
  unfold dictFind
  rw [Option.map_eq_none', List.find?_eq_none]
  constructor
  · intro h hmem
    obtain ⟨kv, hkv, rfl⟩ := List.mem_map.mp hmem
    exact absurd (by simp) (h kv hkv)
  · intro h kv hkv
    simp only [decide_eq_true_eq]
    intro hcon
    exact h (List.mem_map.mpr ⟨kv, hkv, hcon⟩)

theorem last_with_barcode_eq_none_iff (products : List Product) (k : PyVal) :
    last_with_barcode products k = none
      ↔ ∀ p ∈ products, ¬(pyTruthy p.barcode ∧ p.barcode = k) := by
  induction products with
  | nil => simp [last_with_barcode]
  | cons p ps ih =>
    unfold last_with_barcode
    rw [List.foldl_cons, foldl_last_acc]
    constructor
    · intro h q hq
      cases hl : last_with_barcode ps k
      · rw [hl, Option.none_or] at h
        rcases List.mem_cons.mp hq with rfl | hq2
        · intro hcon
          rw [if_pos (Bool.and_eq_true_iff.mpr
            ⟨hcon.1, decide_eq_true hcon.2⟩)] at h
          exact Option.noConfusion h
        · exact (ih.mp hl) q hq2
      · rw [hl] at h
        simp [Option.or] at h
    · intro h
      have h1 : last_with_barcode ps k = none :=
        ih.mpr (fun q hq => h q (List.mem_cons_of_mem p hq))
      rw [h1, Option.none_or]
      have h2 := h p (List.mem_cons_self p ps)
      by_cases hb : pyTruthy p.barcode && decide (p.barcode = k)
      · exfalso
        apply h2
        constructor
        · exact (Bool.and_eq_true_iff.mp hb).1
        · have := (Bool.and_eq_true_iff.mp hb).2
          simpa using this
      · rw [if_neg hb]

/-- C10: loading a snapshot indexes each truthy identifier to the
`Product` built from the LAST record carrying it (later records overwrite
earlier ones), the index holds each identifier at most once, and its size
is the number of distinct truthy identifiers in the stream. -/
theorem load_from_path_last_wins (dataset : List RawRecord)
    (products : List Product) (store : List (PyVal × Product))
    (hprod : iter_product none dataset = .ok products)
    (hload : load_from_path dataset none = .ok store) :
    (∀ k, dictFind store k = last_with_barcode products k) ∧
    (store.map Prod.fst).Nodup ∧
    memory_store_len store
      = ((products.filterMap (fun p =>
          if pyTruthy p.barcode then some p.barcode else none)).dedup).length
    := by
  have hstore : store = build_store products := by
    simp only [load_from_path, hprod, Bool.not_eq_true] at hload
    exact ((Except.ok.injEq _ _).mp hload).symm
  subst hstore
  have hfind : ∀ k,
      dictFind (build_store products) k = last_with_barcode products k :=
    fun k => (foldl_insert_find k products []).trans rfl
  have hnodup : ((build_store products).map Prod.fst).Nodup :=
    build_keys_nodup products [] (by simp)
  refine ⟨hfind, hnodup, ?_⟩
  have hset : ((build_store products).map Prod.fst).toFinset
      = (products.filterMap (fun p =>
          if pyTruthy p.barcode then some p.barcode else none)).toFinset := by
    ext a
    simp only [List.mem_toFinset]
    constructor
    · intro ha
      have hdf : last_with_barcode products a ≠ none := by
        rw [← hfind a]
        intro hcon
        exact ((dictFind_eq_none_iff _ _).mp hcon) ha
      have hex := (not_iff_not.mpr
        (last_with_barcode_eq_none_iff products a)).mp hdf
      push_neg at hex
      obtain ⟨p, hp, hpred⟩ := hex
      exact List.mem_filterMap.mpr
        ⟨p, hp, by rw [if_pos hpred.1, hpred.2]⟩
    · intro ha
      obtain ⟨p, hp, hsome⟩ := List.mem_filterMap.mp ha
      by_cases ht : pyTruthy p.barcode
      · rw [if_pos ht] at hsome
        by_contra hnotmem
        have hdf : dictFind (build_store products) a = none :=
          (dictFind_eq_none_iff _ _).mpr hnotmem
        rw [hfind a] at hdf
        refine ((last_with_barcode_eq_none_iff products a).mp hdf) p hp
          ⟨ht, ?_⟩
        injection hsome
      · rw [if_neg ht] at hsome
        exact Option.noConfusion hsome
  have hlen : ((build_store products).map Prod.fst).length
      = ((products.filterMap (fun p =>
          if pyTruthy p.barcode then some p.barcode else none)).dedup).length
      := by
    rw [← List.toFinset_card_of_nodup hnodup, hset, List.card_toFinset]
  calc memory_store_len (build_store products)
      = ((build_store products).map Prod.fst).length :=
        (List.length_map _ _).symm
    _ = _ := hlen

/-- Witness for C10: three records, two sharing the identifier `1`. -/
theorem load_from_path_last_wins_witness :
    ∃ products store,
      iter_product none
          [[("code", PyVal.pstr "1"), ("lang", PyVal.pstr "fr")],
           [("code", PyVal.pstr "1"), ("lang", PyVal.pstr "en")],
           [("code", PyVal.pstr "2")]] = .ok products ∧
      load_from_path
          [[("code", PyVal.pstr "1"), ("lang", PyVal.pstr "fr")],
           [("code", PyVal.pstr "1"), ("lang", PyVal.pstr "en")],
           [("code", PyVal.pstr "2")]] none = .ok store ∧
      (∀ k, dictFind store k = last_with_barcode products k) ∧
      (store.map Prod.fst).Nodup := by
  have h := load_from_path_last_wins
      [[("code", PyVal.pstr "1"), ("lang", PyVal.pstr "fr")],
       [("code", PyVal.pstr "1"), ("lang", PyVal.pstr "en")],
       [("code", PyVal.pstr "2")]] _ _ rfl rfl
  exact ⟨_, _, rfl, rfl, h.1, h.2.1⟩
